import Mathlib

/-!
Verification of `src/01_input_example/build_manifest.py`.

The script reads the tab-separated file `manifest.tsv`, splits it into the
rows whose `direction` column is `"forward"` and those whose `direction`
column is `"reverse"`, keeps the `sample-id` and `absolute-filepath` columns
of each subset (renamed to `forward-absolute-filepath` resp.
`reverse-absolute-filepath`), inner-merges the two subsets on `sample-id`,
writes the result as tab-separated text to `manifest_v2.tsv` without an
index column, and prints a success message.

The embedding models a parsed table (`RawTable`) as its header column names
plus its data rows (lists of cell strings), the filesystem as an association
list from file names to file contents (lists of lines), and the whole script
run as a function from the filesystem to the resulting filesystem, the lines
printed to standard output, and an optional error.
-/

namespace BuildManifest

/-- A table parsed from a tab-separated file: the header column names and the
data rows, each row a list of cell strings. -/
structure RawTable where
  columns : List String
  rows : List (List String)
deriving Repr, DecidableEq

/-- The value of column `c` in data row `r` of table `t`.  A cell that is
absent (unknown column name or short row) reads as the empty string, which is
how pandas serialises a missing value and which no expected input produces. -/
def getCell (t : RawTable) (r : List String) (c : String) : String :=
  match t.columns.findIdx? (fun s => s == c) with
  | some i => (r.get? i).getD ""
  | none => ""

/-- The forward subset
`fwd = df[df["direction"] == "forward"][["sample-id", "absolute-filepath"]]`
with the filepath column renamed: (sample-id, forward-absolute-filepath)
pairs, in input order. -/
def fwdRows (t : RawTable) : List (String × String) :=
  (t.rows.filter (fun r => getCell t r "direction" == "forward")).map
    (fun r => (getCell t r "sample-id", getCell t r "absolute-filepath"))

/-- The reverse subset
`rev = df[df["direction"] == "reverse"][["sample-id", "absolute-filepath"]]`
with the filepath column renamed: (sample-id, reverse-absolute-filepath)
pairs, in input order. -/
def revRows (t : RawTable) : List (String × String) :=
  (t.rows.filter (fun r => getCell t r "direction" == "reverse")).map
    (fun r => (getCell t r "sample-id", getCell t r "absolute-filepath"))

/-- The merge `pd.merge(fwd, rev, on="sample-id")`: the inner join of the two
subsets on the sample-id key, producing
(sample-id, forward-absolute-filepath, reverse-absolute-filepath) triples.
For each left row, in order, one output row per matching right row. -/
def mergeRows (f r : List (String × String)) : List (String × String × String) :=
  f.flatMap (fun fr => (r.filter (fun rr => rr.fst == fr.fst)).map
    (fun rr => (fr.fst, fr.snd, rr.snd)))

/-- The data rows of `manifest_v2`. -/
def outputRows (t : RawTable) : List (String × String × String) :=
  mergeRows (fwdRows t) (revRows t)

/-- The header line `to_csv` writes for the merged table. -/
def headerOut : String :=
  "sample-id\tforward-absolute-filepath\treverse-absolute-filepath"

/-- One tab-separated output data line (`index=False`: no index column). -/
def wideLine (w : String × String × String) : String :=
  w.fst ++ "\t" ++ w.snd.fst ++ "\t" ++ w.snd.snd

/-- The lines of the output file `manifest_v2.tsv`: the header line followed
by one tab-separated line per joined row. -/
def outputLines (t : RawTable) : List String :=
  headerOut :: (outputRows t).map wideLine

/-- Split a character list at each tab character, keeping empty fields. -/
def splitCharsOnTab : List Char → List (List Char)
  | [] => [[]]
  | c :: cs =>
    if c = '\t' then [] :: splitCharsOnTab cs
    else
      match splitCharsOnTab cs with
      | [] => [[c]]
      | g :: gs => (c :: g) :: gs

/-- Split a line into its tab-separated fields (`sep="\t"`). -/
def splitTabs (s : String) : List String :=
  (splitCharsOnTab s.data).map (fun cs => String.mk cs)

/-- Parsing a list of lines the way `pd.read_csv(..., sep="\t")` does: the
first line is the header, the remaining non-blank lines are data rows, each
split on tabs (pandas skips blank lines by default). -/
def parseLines (ls : List String) : RawTable :=
  match ls with
  | [] => ⟨[], []⟩
  | h :: rest =>
    ⟨splitTabs h, (rest.filter (fun l => l != "")).map (fun l => splitTabs l)⟩

/-- The three column names the script indexes into the input table with;
if any is absent, pandas raises a `KeyError` and the script aborts. -/
def hasRequiredColumns (t : RawTable) : Bool :=
  t.columns.contains "sample-id" && t.columns.contains "direction" &&
    t.columns.contains "absolute-filepath"

/-- The filesystem, as far as the script sees it: file names mapped to file
contents, a content being the list of the file's lines. -/
abbrev FS := List (String × List String)

/-- Read a file: `none` when no file of that name exists. -/
def FS.lookupFile (fs : FS) (name : String) : Option (List String) :=
  match fs.find? (fun p => p.fst == name) with
  | some p => some p.snd
  | none => none

/-- Create or overwrite a file. -/
def FS.setFile (fs : FS) (name : String) (content : List String) : FS :=
  (name, content) :: fs.filter (fun p => p.fst != name)

/-- The conditions under which the script aborts. -/
inductive RunError where
  | inputNotFound : RunError
  | schemaError : RunError
deriving Repr, DecidableEq

/-- The outcome of one run: the filesystem afterwards, the lines printed to
standard output, and the error if the run aborted. -/
structure RunResult where
  fs : FS
  stdout : List String
  err : Option RunError
deriving Repr

/-- The literal success message the script prints. -/
def successMessage : String := "manifest_v2.tsv created successfully"

/-- One run of `build_manifest.py` on filesystem `fs`: read `manifest.tsv`
(abort if absent), abort if a required column is missing from the header,
otherwise build the merged table, write it to `manifest_v2.tsv` and print
the success message.  On abort nothing is written and nothing is printed. -/
def runScript (fs : FS) : RunResult :=
  match FS.lookupFile fs "manifest.tsv" with
  | none => ⟨fs, [], some RunError.inputNotFound⟩
  | some content =>
    let t := parseLines content
    if hasRequiredColumns t then
      ⟨FS.setFile fs "manifest_v2.tsv" (outputLines t), [successMessage], none⟩
    else
      ⟨fs, [], some RunError.schemaError⟩

/-- The number of input rows with direction `"forward"` and the given
sample-id. -/
def countFwd (t : RawTable) (s : String) : Nat :=
  (t.rows.filter (fun r =>
    getCell t r "direction" == "forward" && getCell t r "sample-id" == s)).length

/-- The number of input rows with direction `"reverse"` and the given
sample-id. -/
def countRev (t : RawTable) (s : String) : Nat :=
  (t.rows.filter (fun r =>
    getCell t r "direction" == "reverse" && getCell t r "sample-id" == s)).length

/-- The number of entries of a (sample-id, filepath) subset carrying the
given sample-id. -/
def keyCount (l : List (String × String)) (s : String) : Nat :=
  (l.filter (fun p => p.fst == s)).length

/-! ### Basic membership lemmas -/

theorem mem_fwdRows {t : RawTable} {s p : String} :
    (s, p) ∈ fwdRows t ↔ ∃ r, r ∈ t.rows ∧ getCell t r "direction" = "forward" ∧
      getCell t r "sample-id" = s ∧ getCell t r "absolute-filepath" = p := by
  constructor
  · intro h
    obtain ⟨row, hrow, heq⟩ := List.mem_map.mp h
    obtain ⟨hmem, hd⟩ := List.mem_filter.mp hrow
    exact ⟨row, hmem, by simpa using hd, congrArg Prod.fst heq, congrArg Prod.snd heq⟩
  · rintro ⟨row, hmem, hd, hs, hp⟩
    exact List.mem_map.mpr
      ⟨row, List.mem_filter.mpr ⟨hmem, by simp [hd]⟩, by rw [hs, hp]⟩

theorem mem_revRows {t : RawTable} {s p : String} :
    (s, p) ∈ revRows t ↔ ∃ r, r ∈ t.rows ∧ getCell t r "direction" = "reverse" ∧
      getCell t r "sample-id" = s ∧ getCell t r "absolute-filepath" = p := by
  constructor
  · intro h
    obtain ⟨row, hrow, heq⟩ := List.mem_map.mp h
    obtain ⟨hmem, hd⟩ := List.mem_filter.mp hrow
    exact ⟨row, hmem, by simpa using hd, congrArg Prod.fst heq, congrArg Prod.snd heq⟩
  · rintro ⟨row, hmem, hd, hs, hp⟩
    exact List.mem_map.mpr
      ⟨row, List.mem_filter.mpr ⟨hmem, by simp [hd]⟩, by rw [hs, hp]⟩

theorem mem_mergeRows {f r : List (String × String)} {w : String × String × String} :
    w ∈ mergeRows f r ↔ (w.1, w.2.1) ∈ f ∧ (w.1, w.2.2) ∈ r := by
  constructor
  · intro hw
    obtain ⟨fr, hf, hw2⟩ := List.mem_flatMap.mp hw
    obtain ⟨rr, hrr, hww⟩ := List.mem_map.mp hw2
    obtain ⟨hr, hk⟩ := List.mem_filter.mp hrr
    have hk2 : rr.1 = fr.1 := by simpa using hk
    subst hww
    constructor
    · simpa using hf
    · have : (rr.1, rr.2) ∈ r := by simpa using hr
      rw [← hk2]; exact this
  · rintro ⟨hf, hr⟩
    apply List.mem_flatMap.mpr
    refine ⟨(w.1, w.2.1), hf, ?_⟩
    exact List.mem_map.mpr ⟨(w.1, w.2.2), List.mem_filter.mpr ⟨hr, by simp⟩, rfl⟩

/-- A convenient example input: S1 has both directions, S2 only forward. -/
def exampleTable : RawTable :=
  ⟨["sample-id", "direction", "absolute-filepath"],
   [["S1", "forward", "/a/f1.fastq"],
    ["S1", "reverse", "/a/r1.fastq"],
    ["S2", "forward", "/a/f2.fastq"]]⟩

/-- An input where S1 has two forward rows and one reverse row. -/
def dupTable : RawTable :=
  ⟨["sample-id", "direction", "absolute-filepath"],
   [["S1", "forward", "/a/f1.fastq"],
    ["S1", "forward", "/a/f1b.fastq"],
    ["S1", "reverse", "/a/r1.fastq"]]⟩

/-- C1: a sample-id with at least one forward row and no reverse row (or vice
versa) does not appear in any data row of the output table: the merge is an
inner join on sample-id. -/
theorem inner_join_drops_one_sided_samples (t : RawTable) (s : String)
    (h : ((∃ r ∈ t.rows, getCell t r "direction" = "forward" ∧ getCell t r "sample-id" = s) ∧
           ¬ ∃ r ∈ t.rows, getCell t r "direction" = "reverse" ∧ getCell t r "sample-id" = s) ∨
         ((∃ r ∈ t.rows, getCell t r "direction" = "reverse" ∧ getCell t r "sample-id" = s) ∧
           ¬ ∃ r ∈ t.rows, getCell t r "direction" = "forward" ∧ getCell t r "sample-id" = s)) :
    s ∉ (outputRows t).map (fun w => w.fst) := by
  intro hs
  obtain ⟨w, hw, hws⟩ := List.mem_map.mp hs
  rw [outputRows, mem_mergeRows] at hw
  obtain ⟨hf, hr⟩ := hw
  rcases h with ⟨_, hnr⟩ | ⟨_, hnf⟩
  · obtain ⟨r, hrm, hd, hsid, _⟩ := mem_revRows.mp hr
    exact hnr ⟨r, hrm, hd, by rw [hsid, hws]⟩
  · obtain ⟨r, hrm, hd, hsid, _⟩ := mem_fwdRows.mp hf
    exact hnf ⟨r, hrm, hd, by rw [hsid, hws]⟩

/-- Witness for C1 at a concrete input: S2 has only a forward row in
`exampleTable` and is absent from the output. -/
theorem inner_join_drops_one_sided_samples_witness :
    "S2" ∉ (outputRows exampleTable).map (fun w => w.fst) :=
  inner_join_drops_one_sided_samples exampleTable "S2"
    (Or.inl ⟨by decide, by decide⟩)

/-- C2: every output row carries, in its forward (resp. reverse) filepath
column, the absolute-filepath of a matching input row with direction
`"forward"` (resp. `"reverse"`) and the same sample-id. -/
theorem output_filepaths_come_from_input (t : RawTable) (w : String × String × String)
    (hw : w ∈ outputRows t) :
    (∃ r ∈ t.rows, getCell t r "direction" = "forward" ∧
        getCell t r "sample-id" = w.fst ∧ getCell t r "absolute-filepath" = w.snd.fst) ∧
    (∃ r ∈ t.rows, getCell t r "direction" = "reverse" ∧
        getCell t r "sample-id" = w.fst ∧ getCell t r "absolute-filepath" = w.snd.snd) := by
  rw [outputRows, mem_mergeRows] at hw
  obtain ⟨hf, hr⟩ := hw
  constructor
  · obtain ⟨r, hrm, hd, hsid, hp⟩ := mem_fwdRows.mp hf
    exact ⟨r, hrm, hd, hsid, hp⟩
  · obtain ⟨r, hrm, hd, hsid, hp⟩ := mem_revRows.mp hr
    exact ⟨r, hrm, hd, hsid, hp⟩

/-- Witness for C2 at a concrete input: the single output row of
`exampleTable` takes both of its filepaths from the matching input rows. -/
theorem output_filepaths_come_from_input_witness :
    (∃ r ∈ exampleTable.rows, getCell exampleTable r "direction" = "forward" ∧
        getCell exampleTable r "sample-id" = "S1" ∧
        getCell exampleTable r "absolute-filepath" = "/a/f1.fastq") ∧
    (∃ r ∈ exampleTable.rows, getCell exampleTable r "direction" = "reverse" ∧
        getCell exampleTable r "sample-id" = "S1" ∧
        getCell exampleTable r "absolute-filepath" = "/a/r1.fastq") :=
  output_filepaths_come_from_input exampleTable ("S1", "/a/f1.fastq", "/a/r1.fastq")
    (by decide)

/-! ### Counting lemmas -/

theorem mergeRows_cons (a : String × String) (f r : List (String × String)) :
    mergeRows (a :: f) r = ((r.filter (fun rr => rr.fst == a.fst)).map
      (fun rr => (a.fst, a.snd, rr.snd))) ++ mergeRows f r := by
  rw [mergeRows, mergeRows, List.flatMap_cons]

theorem keyCount_cons (a : String × String) (l : List (String × String)) (s : String) :
    keyCount (a :: l) s = keyCount l s + (if a.fst = s then 1 else 0) := by
  by_cases h : a.fst = s <;> simp [keyCount, List.filter_cons, h]

theorem one_le_keyCount_of_mem {l : List (String × String)} {s : String}
    (h : s ∈ l.map Prod.fst) : 1 ≤ keyCount l s := by
  obtain ⟨p, hp, hps⟩ := List.mem_map.mp h
  exact List.length_pos_of_mem (List.mem_filter.mpr ⟨hp, by simp [hps]⟩)

theorem mem_of_one_le_keyCount {l : List (String × String)} {s : String}
    (h : 1 ≤ keyCount l s) : s ∈ l.map Prod.fst := by
  rcases hf : l.filter (fun q => q.fst == s) with _ | ⟨p, rest⟩
  · exfalso; unfold keyCount at h; rw [hf] at h; simp at h
  · have hp : p ∈ l.filter (fun q => q.fst == s) := by
      rw [hf]; exact List.mem_cons_self p rest
    obtain ⟨hpl, hps⟩ := List.mem_filter.mp hp
    exact List.mem_map.mpr ⟨p, hpl, by simpa using hps⟩

theorem nodup_keys_of_keyCount_le_one {l : List (String × String)}
    (h : ∀ s, keyCount l s ≤ 1) : (l.map Prod.fst).Nodup := by
  induction l with
  | nil => simp
  | cons a l ih =>
    simp only [List.map_cons, List.nodup_cons]
    constructor
    · intro hmem
      have h1 := one_le_keyCount_of_mem hmem
      have h2 := h a.fst
      rw [keyCount_cons, if_pos rfl] at h2
      omega
    · apply ih
      intro s
      have hs := h s
      rw [keyCount_cons] at hs
      by_cases has : a.fst = s
      · rw [if_pos has] at hs; omega
      · rw [if_neg has] at hs; omega

theorem length_mergeRows_of_unique (f r : List (String × String))
    (h : ∀ fr ∈ f, keyCount r fr.fst = 1) : (mergeRows f r).length = f.length := by
  induction f with
  | nil => rfl
  | cons a f ih =>
    rw [mergeRows_cons, List.length_append, List.length_map, List.length_cons,
      ih (fun fr hfr => h fr (List.mem_cons_of_mem a hfr))]
    have ha : (r.filter (fun rr => rr.fst == a.fst)).length = 1 :=
      h a (List.mem_cons_self a f)
    omega

theorem length_filter_mergeRows (f r : List (String × String)) (s : String) :
    ((mergeRows f r).filter (fun w => w.fst == s)).length
      = keyCount f s * keyCount r s := by
  induction f with
  | nil => simp [mergeRows, keyCount]
  | cons a f ih =>
    rw [mergeRows_cons, List.filter_append, List.length_append, ih, keyCount_cons]
    by_cases h : a.fst = s
    · rw [if_pos h]
      have hkeep : (((r.filter (fun rr => rr.fst == a.fst)).map
          (fun rr => (a.fst, a.snd, rr.snd))).filter (fun w => w.fst == s))
          = (r.filter (fun rr => rr.fst == a.fst)).map
            (fun rr => (a.fst, a.snd, rr.snd)) := by
        apply List.filter_eq_self.mpr
        intro w hw
        obtain ⟨rr, hrr, hww⟩ := List.mem_map.mp hw
        rw [← hww]; simp [h]
      rw [hkeep, List.length_map, h]
      have hks : (r.filter (fun rr => rr.fst == s)).length = keyCount r s := rfl
      rw [hks]; ring
    · rw [if_neg h]
      have hnil : (((r.filter (fun rr => rr.fst == a.fst)).map
          (fun rr => (a.fst, a.snd, rr.snd))).filter (fun w => w.fst == s))
          = [] := by
        apply List.filter_eq_nil_iff.mpr
        intro w hw
        obtain ⟨rr, hrr, hww⟩ := List.mem_map.mp hw
        rw [← hww]; simp [h]
      rw [hnil]; simp

theorem keyCount_filter_map (t : RawTable) (d s : String) (rs : List (List String)) :
    keyCount ((rs.filter (fun r => getCell t r "direction" == d)).map
        (fun r => (getCell t r "sample-id", getCell t r "absolute-filepath"))) s
      = (rs.filter (fun r =>
          getCell t r "direction" == d && getCell t r "sample-id" == s)).length := by
  induction rs with
  | nil => rfl
  | cons a l ih =>
    by_cases hd : getCell t a "direction" = d
    · by_cases hs : getCell t a "sample-id" = s
      · simp [List.filter_cons, hd, hs, keyCount_cons, ih]
      · simp [List.filter_cons, hd, hs, keyCount_cons, ih]
    · simp [List.filter_cons, hd, keyCount_cons, ih]

theorem keyCount_fwdRows (t : RawTable) (s : String) :
    keyCount (fwdRows t) s = countFwd t s :=
  keyCount_filter_map t "forward" s t.rows

theorem keyCount_revRows (t : RawTable) (s : String) :
    keyCount (revRows t) s = countRev t s :=
  keyCount_filter_map t "reverse" s t.rows

/-- C4: for every input and every sample-id, the output contains one row per
pair of a forward row and a reverse row with that sample-id (the
cross-product of matches, with no deduplication). -/
theorem join_is_cross_product (t : RawTable) (s : String) :
    ((outputRows t).filter (fun w => w.fst == s)).length
      = countFwd t s * countRev t s := by
  rw [outputRows, length_filter_mergeRows, keyCount_fwdRows, keyCount_revRows]

/-- C5 as stated is false: in `dupTable` the sample-id S1 appears in the
output although the input holds two forward rows for it, not exactly one. -/
theorem output_id_unique_rows_counterexample :
    ¬ (∀ (t : RawTable) (s : String), s ∈ (outputRows t).map (fun w => w.fst) →
        countFwd t s = 1 ∧ countRev t s = 1) := by
  intro h
  exact absurd (h dupTable "S1" (by decide)).1 (by decide)

/-- C5 amended: every sample-id appearing in a data row of the output has at
least one forward row and at least one reverse row in the input (exactly one
of each is not guaranteed: duplicates survive the join). -/
theorem output_ids_have_both_directions (t : RawTable) (s : String)
    (h : s ∈ (outputRows t).map (fun w => w.fst)) :
    1 ≤ countFwd t s ∧ 1 ≤ countRev t s := by
  obtain ⟨w, hw, hws⟩ := List.mem_map.mp h
  rw [outputRows, mem_mergeRows] at hw
  obtain ⟨hf, hr⟩ := hw
  subst hws
  constructor
  · rw [← keyCount_fwdRows]
    exact one_le_keyCount_of_mem (List.mem_map.mpr ⟨(w.1, w.2.1), hf, rfl⟩)
  · rw [← keyCount_revRows]
    exact one_le_keyCount_of_mem (List.mem_map.mpr ⟨(w.1, w.2.2), hr, rfl⟩)

/-- Witness for the amended C5 at a concrete input. -/
theorem output_ids_have_both_directions_witness :
    1 ≤ countFwd exampleTable "S1" ∧ 1 ≤ countRev exampleTable "S1" :=
  output_ids_have_both_directions exampleTable "S1" (by decide)

/-- An input in which every sample-id has exactly one forward row and exactly
one reverse row. -/
def pairedTable : RawTable :=
  ⟨["sample-id", "direction", "absolute-filepath"],
   [["S1", "forward", "/a/f1.fastq"],
    ["S1", "reverse", "/a/r1.fastq"],
    ["S2", "forward", "/a/f2.fastq"],
    ["S2", "reverse", "/a/r2.fastq"]]⟩

/-- C3: if every sample-id occurring in the input has exactly one forward row
and exactly one reverse row, the number of output data rows equals the number
of distinct sample-ids in the input. -/
theorem join_count_of_unique_pairs (t : RawTable)
    (H : ∀ s, (∃ r ∈ t.rows, getCell t r "sample-id" = s) →
        countFwd t s = 1 ∧ countRev t s = 1) :
    (outputRows t).length
      = ((t.rows.map (fun r => getCell t r "sample-id")).toFinset).card := by
  have hocc : ∀ fr ∈ fwdRows t, ∃ r ∈ t.rows, getCell t r "sample-id" = fr.fst := by
    intro fr hfr
    obtain ⟨row, hrow, _, hsid, _⟩ :=
      mem_fwdRows.mp (show (fr.1, fr.2) ∈ fwdRows t by simpa using hfr)
    exact ⟨row, hrow, hsid⟩
  have hlen : (outputRows t).length = (fwdRows t).length := by
    apply length_mergeRows_of_unique
    intro fr hfr
    rw [keyCount_revRows]
    exact (H fr.fst (hocc fr hfr)).2
  have hnodup : ((fwdRows t).map Prod.fst).Nodup := by
    apply nodup_keys_of_keyCount_le_one
    intro s
    rw [keyCount_fwdRows]
    by_cases hex : ∃ r ∈ t.rows, getCell t r "sample-id" = s
    · have h1 := (H s hex).1
      omega
    · have h0 : countFwd t s = 0 := by
        unfold countFwd
        rw [List.length_eq_zero]
        apply List.filter_eq_nil_iff.mpr
        intro r hr
        simp only [Bool.and_eq_true, beq_iff_eq, not_and]
        intro _ hsid
        exact hex ⟨r, hr, hsid⟩
      omega
  have hset : ((fwdRows t).map Prod.fst).toFinset
      = (t.rows.map (fun r => getCell t r "sample-id")).toFinset := by
    ext s
    simp only [List.mem_toFinset]
    constructor
    · intro hs
      obtain ⟨p, hp, hps⟩ := List.mem_map.mp hs
      obtain ⟨row, hrow, hsid⟩ := hocc p hp
      exact List.mem_map.mpr ⟨row, hrow, by rw [hsid, hps]⟩
    · intro hs
      obtain ⟨row, hrow, hsid⟩ := List.mem_map.mp hs
      apply mem_of_one_le_keyCount
      rw [keyCount_fwdRows, (H s ⟨row, hrow, hsid⟩).1]
  calc (outputRows t).length = (fwdRows t).length := hlen
    _ = ((fwdRows t).map Prod.fst).length := (List.length_map _ _).symm
    _ = ((fwdRows t).map Prod.fst).toFinset.card :=
        (List.toFinset_card_of_nodup hnodup).symm
    _ = _ := by rw [hset]

/-- Witness for C3 at a concrete input: two fully paired sample-ids yield two
output rows. -/
theorem join_count_of_unique_pairs_witness :
    (outputRows pairedTable).length
      = ((pairedTable.rows.map
          (fun r => getCell pairedTable r "sample-id")).toFinset).card := by
  apply join_count_of_unique_pairs
  intro s hex
  obtain ⟨r, hr, hsid⟩ := hex
  simp only [pairedTable, List.mem_cons, List.not_mem_nil, or_false] at hr
  rcases hr with rfl | rfl | rfl | rfl <;> (subst hsid; exact ⟨by decide, by decide⟩)

/-! ### Filesystem lemmas -/

theorem lookupFile_setFile_self (fs : FS) (n : String) (c : List String) :
    FS.lookupFile (FS.setFile fs n c) n = some c := by
  unfold FS.lookupFile FS.setFile
  rw [List.find?_cons_of_pos _ (by simp)]

theorem find?_filter_other (fs : FS) (n m : String) (h : m ≠ n) :
    List.find? (fun p => p.fst == m) (fs.filter (fun p => p.fst != n))
      = List.find? (fun p => p.fst == m) fs := by
  induction fs with
  | nil => rfl
  | cons a l ih =>
    rw [List.filter_cons]
    by_cases hn : a.fst = n
    · rw [if_neg (by simp [hn])]
      rw [List.find?_cons_of_neg _ (by simp [hn, Ne.symm h])]
      exact ih
    · rw [if_pos (by simp [hn])]
      by_cases hm : a.fst = m
      · rw [List.find?_cons_of_pos _ (by simp [hm]),
          List.find?_cons_of_pos _ (by simp [hm])]
      · rw [List.find?_cons_of_neg _ (by simp [hm]),
          List.find?_cons_of_neg _ (by simp [hm])]
        exact ih

theorem lookupFile_setFile_other (fs : FS) (n m : String) (c : List String)
    (h : m ≠ n) :
    FS.lookupFile (FS.setFile fs n c) m = FS.lookupFile fs m := by
  unfold FS.lookupFile FS.setFile
  rw [List.find?_cons_of_neg _ (by simp [Ne.symm h]), find?_filter_other fs n m h]

theorem runScript_of_lookup_none {fs : FS}
    (h : FS.lookupFile fs "manifest.tsv" = none) :
    runScript fs = ⟨fs, [], some RunError.inputNotFound⟩ := by
  unfold runScript
  rw [h]

theorem runScript_of_bad_schema {fs : FS} {c : List String}
    (h : FS.lookupFile fs "manifest.tsv" = some c)
    (hc : hasRequiredColumns (parseLines c) = false) :
    runScript fs = ⟨fs, [], some RunError.schemaError⟩ := by
  unfold runScript
  rw [h]
  simp [hc]

theorem runScript_of_good_schema {fs : FS} {c : List String}
    (h : FS.lookupFile fs "manifest.tsv" = some c)
    (hc : hasRequiredColumns (parseLines c) = true) :
    runScript fs = ⟨FS.setFile fs "manifest_v2.tsv" (outputLines (parseLines c)),
      [successMessage], none⟩ := by
  unfold runScript
  rw [h]
  simp [hc]

/-- The filesystem with only a header-only input manifest. -/
def headerOnlyFS : FS := [("manifest.tsv", ["sample-id\tdirection\tabsolute-filepath"])]

/-- C6: an input with the required columns but no sample-id present in both
directions is not an error: the run writes a header-only output file and
still prints the success message. -/
theorem empty_join_header_only (fs : FS) (content : List String)
    (hin : FS.lookupFile fs "manifest.tsv" = some content)
    (hcols : hasRequiredColumns (parseLines content) = true)
    (hdisj : ∀ s, s ∈ (fwdRows (parseLines content)).map Prod.fst →
        s ∉ (revRows (parseLines content)).map Prod.fst) :
    (runScript fs).err = none ∧ (runScript fs).stdout = [successMessage] ∧
      FS.lookupFile (runScript fs).fs "manifest_v2.tsv" = some [headerOut] := by
  have hout : outputRows (parseLines content) = [] := by
    rw [List.eq_nil_iff_forall_not_mem]
    intro w hw
    rw [outputRows, mem_mergeRows] at hw
    obtain ⟨hf, hr⟩ := hw
    exact hdisj w.1 (List.mem_map.mpr ⟨(w.1, w.2.1), hf, rfl⟩)
      (List.mem_map.mpr ⟨(w.1, w.2.2), hr, rfl⟩)
  rw [runScript_of_good_schema hin hcols]
  refine ⟨rfl, rfl, ?_⟩
  rw [lookupFile_setFile_self, outputLines, hout]
  rfl

/-- Witness for C6 at a concrete input: a header-only manifest yields a
header-only output and the success message. -/
theorem empty_join_header_only_witness :
    (runScript headerOnlyFS).err = none ∧
      (runScript headerOnlyFS).stdout = [successMessage] ∧
      FS.lookupFile (runScript headerOnlyFS).fs "manifest_v2.tsv"
        = some [headerOut] := by
  apply empty_join_header_only headerOnlyFS
    ["sample-id\tdirection\tabsolute-filepath"]
  · decide
  · decide
  · intro s hs
    have hfwd : (fwdRows (parseLines
        ["sample-id\tdirection\tabsolute-filepath"])).map Prod.fst
        = ([] : List String) := by decide
    rw [hfwd] at hs
    exact absurd hs (List.not_mem_nil s)

/-- C7: when the input file is missing or a required column is absent, the
run aborts with an error, writes nothing and prints nothing: the filesystem
is unchanged. -/
theorem abort_before_output (fs : FS)
    (h : FS.lookupFile fs "manifest.tsv" = none ∨
         ∃ content, FS.lookupFile fs "manifest.tsv" = some content ∧
           hasRequiredColumns (parseLines content) = false) :
    (runScript fs).err ≠ none ∧ (runScript fs).fs = fs ∧
      (runScript fs).stdout = [] := by
  rcases h with h | ⟨c, hc, hcols⟩
  · rw [runScript_of_lookup_none h]
    exact ⟨by simp, rfl, rfl⟩
  · rw [runScript_of_bad_schema hc hcols]
    exact ⟨by simp, rfl, rfl⟩

/-- Witness for C7 at a concrete input: the empty filesystem has no
`manifest.tsv`, and the run aborts leaving it untouched. -/
theorem abort_before_output_witness :
    (runScript []).err ≠ none ∧ (runScript []).fs = [] ∧
      (runScript []).stdout = [] :=
  abort_before_output [] (Or.inl rfl)

/-- C8: on every successful run the output file starts with the fixed header
line naming exactly the columns sample-id, forward-absolute-filepath and
reverse-absolute-filepath, tab-separated and in that order, with no index
column; every data line is three tab-separated fields. -/
theorem success_output_header (fs : FS)
    (h : (runScript fs).err = none) :
    ∃ out, FS.lookupFile (runScript fs).fs "manifest_v2.tsv" = some out ∧
      out.head? = some headerOut ∧
      headerOut = "sample-id" ++ "\t" ++ "forward-absolute-filepath" ++ "\t"
        ++ "reverse-absolute-filepath" ∧
      ∀ line ∈ out.tail, ∃ a b c, line = a ++ "\t" ++ b ++ "\t" ++ c := by
  rcases hl : FS.lookupFile fs "manifest.tsv" with _ | c
  · rw [runScript_of_lookup_none hl] at h
    simp at h
  · rcases hcols : hasRequiredColumns (parseLines c) with _ | _
    · rw [runScript_of_bad_schema hl hcols] at h
      simp at h
    · refine ⟨outputLines (parseLines c), ?_, rfl, rfl, ?_⟩
      · rw [runScript_of_good_schema hl hcols]
        exact lookupFile_setFile_self fs _ _
      · intro line hline
        rw [outputLines] at hline
        simp only [List.tail_cons] at hline
        obtain ⟨w, hw, hww⟩ := List.mem_map.mp hline
        exact ⟨w.1, w.2.1, w.2.2, hww.symm⟩

/-- Witness for C8 at a concrete input. -/
theorem success_output_header_witness :
    ∃ out, FS.lookupFile (runScript headerOnlyFS).fs "manifest_v2.tsv"
        = some out ∧
      out.head? = some headerOut ∧
      headerOut = "sample-id" ++ "\t" ++ "forward-absolute-filepath" ++ "\t"
        ++ "reverse-absolute-filepath" ∧
      ∀ line ∈ out.tail, ∃ a b c, line = a ++ "\t" ++ b ++ "\t" ++ c :=
  success_output_header headerOnlyFS (by decide)

/-- Row-wise agreement of two parsed inputs on the three columns the script
uses; nothing is said about any extra column. -/
def agreeOnKeyColumns (t1 t2 : RawTable) (r1 r2 : List String) : Prop :=
  getCell t1 r1 "sample-id" = getCell t2 r2 "sample-id" ∧
  getCell t1 r1 "direction" = getCell t2 r2 "direction" ∧
  getCell t1 r1 "absolute-filepath" = getCell t2 r2 "absolute-filepath"

theorem filterMapDir_congr (t1 t2 : RawTable) (d : String)
    {rs1 rs2 : List (List String)}
    (h : List.Forall₂ (agreeOnKeyColumns t1 t2) rs1 rs2) :
    (rs1.filter (fun r => getCell t1 r "direction" == d)).map
      (fun r => (getCell t1 r "sample-id", getCell t1 r "absolute-filepath"))
    = (rs2.filter (fun r => getCell t2 r "direction" == d)).map
      (fun r => (getCell t2 r "sample-id", getCell t2 r "absolute-filepath")) := by
  induction h with
  | nil => rfl
  | @cons r1 r2 l1 l2 ha hl ih =>
    obtain ⟨hsid, hdir, hpath⟩ := ha
    rw [List.filter_cons, List.filter_cons, hdir]
    by_cases hd : (getCell t2 r2 "direction" == d) = true
    · rw [if_pos hd, if_pos hd, List.map_cons, List.map_cons, ih, hsid, hpath]
    · rw [if_neg hd, if_neg hd, ih]

theorem fwdRows_congr {t1 t2 : RawTable}
    (h : List.Forall₂ (agreeOnKeyColumns t1 t2) t1.rows t2.rows) :
    fwdRows t1 = fwdRows t2 :=
  filterMapDir_congr t1 t2 "forward" h

theorem revRows_congr {t1 t2 : RawTable}
    (h : List.Forall₂ (agreeOnKeyColumns t1 t2) t1.rows t2.rows) :
    revRows t1 = revRows t2 :=
  filterMapDir_congr t1 t2 "reverse" h

theorem outputLines_congr {t1 t2 : RawTable}
    (h : List.Forall₂ (agreeOnKeyColumns t1 t2) t1.rows t2.rows) :
    outputLines t1 = outputLines t2 := by
  rw [outputLines, outputLines, outputRows, outputRows,
    fwdRows_congr h, revRows_congr h]

/-- C9: two input manifests that agree row by row on the three columns
sample-id, direction and absolute-filepath produce identical output — the
same output file content, the same message and the same outcome — whatever
their extra columns hold. -/
theorem extra_columns_no_effect (fs1 fs2 : FS) (c1 c2 : List String)
    (h1 : FS.lookupFile fs1 "manifest.tsv" = some c1)
    (h2 : FS.lookupFile fs2 "manifest.tsv" = some c2)
    (hc1 : hasRequiredColumns (parseLines c1) = true)
    (hc2 : hasRequiredColumns (parseLines c2) = true)
    (h : List.Forall₂ (agreeOnKeyColumns (parseLines c1) (parseLines c2))
        (parseLines c1).rows (parseLines c2).rows) :
    FS.lookupFile (runScript fs1).fs "manifest_v2.tsv"
      = FS.lookupFile (runScript fs2).fs "manifest_v2.tsv" ∧
    (runScript fs1).stdout = (runScript fs2).stdout ∧
    (runScript fs1).err = (runScript fs2).err := by
  rw [runScript_of_good_schema h1 hc1, runScript_of_good_schema h2 hc2]
  refine ⟨?_, rfl, rfl⟩
  rw [lookupFile_setFile_self, lookupFile_setFile_self, outputLines_congr h]

/-- The example manifest as a file with only the three used columns. -/
def plainFS : FS := [("manifest.tsv",
  ["sample-id\tdirection\tabsolute-filepath",
   "S1\tforward\t/a/f1.fastq",
   "S1\treverse\t/a/r1.fastq"])]

/-- The same manifest with an extra `notes` column holding unrelated data. -/
def extraColFS : FS := [("manifest.tsv",
  ["sample-id\tdirection\tabsolute-filepath\tnotes",
   "S1\tforward\t/a/f1.fastq\tx",
   "S1\treverse\t/a/r1.fastq\ty"])]

/-- Witness for C9 at a concrete input: adding a `notes` column changes
nothing in the output. -/
theorem extra_columns_no_effect_witness :
    FS.lookupFile (runScript plainFS).fs "manifest_v2.tsv"
      = FS.lookupFile (runScript extraColFS).fs "manifest_v2.tsv" ∧
    (runScript plainFS).stdout = (runScript extraColFS).stdout ∧
    (runScript plainFS).err = (runScript extraColFS).err := by
  apply extra_columns_no_effect plainFS extraColFS
    ["sample-id\tdirection\tabsolute-filepath",
     "S1\tforward\t/a/f1.fastq",
     "S1\treverse\t/a/r1.fastq"]
    ["sample-id\tdirection\tabsolute-filepath\tnotes",
     "S1\tforward\t/a/f1.fastq\tx",
     "S1\treverse\t/a/r1.fastq\ty"]
  · decide
  · decide
  · decide
  · decide
  · refine List.Forall₂.cons ⟨by decide, by decide, by decide⟩ ?_
    refine List.Forall₂.cons ⟨by decide, by decide, by decide⟩ ?_
    exact List.Forall₂.nil

/-- C10: the run never touches any file other than `manifest_v2.tsv`; in
particular the input `manifest.tsv` is only read, never modified. -/
theorem only_writes_output_file (fs : FS) (name : String)
    (h : name ≠ "manifest_v2.tsv") :
    FS.lookupFile (runScript fs).fs name = FS.lookupFile fs name := by
  rcases hl : FS.lookupFile fs "manifest.tsv" with _ | c
  · rw [runScript_of_lookup_none hl]
  · rcases hcols : hasRequiredColumns (parseLines c) with _ | _
    · rw [runScript_of_bad_schema hl hcols]
    · rw [runScript_of_good_schema hl hcols]
      exact lookupFile_setFile_other fs "manifest_v2.tsv" name _ h

/-- Witness for C10 at a concrete input: after a successful run the input
file reads back unchanged. -/
theorem only_writes_output_file_witness :
    FS.lookupFile (runScript headerOnlyFS).fs "manifest.tsv"
      = FS.lookupFile headerOnlyFS "manifest.tsv" :=
  only_writes_output_file headerOnlyFS "manifest.tsv" (by decide)

end BuildManifest
